import Mathlib

/-!
Verification of the supergrader grading orchestration engine.

This file gives a shallow embedding, in Lean 4, of the core backend code of
the repository (batch scheduler, majority-vote consensus, rubric evaluator,
fallback decisions, retry classification, submission validation, and the
in-memory job store), together with theorems settling the specification
claims about that code.

Conventions of the embedding:
- Python non-negative integers are modelled as `Nat`; Python `//` on
  non-negative integers is `Nat` division.
- Python floats appearing in exact arithmetic claims (confidence scores,
  points, progress fractions) are modelled as `ℚ`.
- Python dicts are modelled as association lists in insertion order, which
  is the iteration order Python guarantees.
- `collections.Counter.most_common` sorts entries by count, descending,
  keeping first-encountered order among equal counts (documented CPython
  behaviour).  It is embedded as a stable insertion sort
  (`Mathlib List.insertionSort`) over the first-seen key list.
- Fallible Python code (exceptions) is modelled with `Option`/`Except`.
-/

namespace Supergrader

/-! ## General list helpers used by the embedding -/

/-- The distinct values of a list, in first-seen order.  This is the key
order of a Python `dict`/`Counter` built by scanning the list. -/
def fsk {α : Type} [DecidableEq α] : List α → List α
  | [] => []
  | x :: xs => x :: fsk (xs.filter (fun y => decide (y ≠ x)))
termination_by l => l.length
decreasing_by
  simp only [List.length_cons]
  exact Nat.lt_succ_of_le (xs.length_filter_le _)

/-- The maximum of `c` over a list (`0` on the empty list). -/
def listMax {α : Type} (c : α → Nat) : List α → Nat
  | [] => 0
  | x :: xs => max (c x) (listMax c xs)

/-- Python `max(l, key = k)`: the first element attaining the maximal key;
`none` on the empty list (Python raises `ValueError`). -/
def pyMax {α : Type} (k : α → Nat) : List α → Option α
  | [] => none
  | x :: xs => some (xs.foldl (fun b v => if k v > k b then v else b) x)

theorem mem_fsk {α : Type} [DecidableEq α] (a : α) :
    ∀ l : List α, a ∈ fsk l ↔ a ∈ l
  | [] => by rw [fsk]
  | x :: xs => by
    rw [fsk]
    by_cases hax : a = x
    · subst hax; simp
    · simp only [List.mem_cons, mem_fsk a (xs.filter _), List.mem_filter]
      simp [hax]
termination_by l => l.length
decreasing_by
  simp only [List.length_cons]
  exact Nat.lt_succ_of_le (xs.length_filter_le _)

theorem nodup_fsk {α : Type} [DecidableEq α] :
    ∀ l : List α, (fsk l).Nodup
  | [] => by rw [fsk]; exact List.nodup_nil
  | x :: xs => by
    rw [fsk]
    refine List.Nodup.cons ?_ (nodup_fsk _)
    intro hx
    have := (mem_fsk x _).1 hx
    simp only [List.mem_filter, decide_eq_true_eq] at this
    exact this.2 rfl
termination_by l => l.length
decreasing_by
  simp only [List.length_cons]
  exact Nat.lt_succ_of_le (xs.length_filter_le _)

theorem le_listMax {α : Type} (c : α → Nat) {a : α} :
    ∀ {l : List α}, a ∈ l → c a ≤ listMax c l
  | [], h => absurd h (List.not_mem_nil a)
  | x :: xs, h => by
    rcases List.mem_cons.1 h with h | h
    · subst h; exact le_max_left _ _
    · exact le_trans (le_listMax c h) (le_max_right _ _)

theorem listMax_mem {α : Type} (c : α → Nat) :
    ∀ {l : List α}, l ≠ [] → ∃ a ∈ l, c a = listMax c l
  | [], h => absurd rfl h
  | x :: xs, _ => by
    by_cases hxs : xs = []
    · subst hxs
      exact ⟨x, List.mem_cons_self _ _, by simp [listMax]⟩
    · obtain ⟨a, ha, hca⟩ := listMax_mem c hxs
      rcases le_total (listMax c xs) (c x) with h | h
      · exact ⟨x, List.mem_cons_self _ _, by simp [listMax, Nat.max_eq_left h]⟩
      · exact ⟨a, List.mem_cons_of_mem _ ha, by simp [listMax, Nat.max_eq_right h, hca]⟩

theorem listMax_congr {α : Type} (c : α → Nat) {l₁ l₂ : List α}
    (h : ∀ a, a ∈ l₁ ↔ a ∈ l₂) : listMax c l₁ = listMax c l₂ := by
  rcases eq_or_ne l₁ [] with h1 | h1
  · subst h1
    rcases eq_or_ne l₂ [] with h2 | h2
    · simp [h2]
    · obtain ⟨a, ha, _⟩ := listMax_mem c h2
      exact absurd ((h a).2 ha) (List.not_mem_nil a)
  · have h2 : l₂ ≠ [] := by
      obtain ⟨a, ha, _⟩ := listMax_mem c h1
      intro he
      exact absurd ((h a).1 ha) (he ▸ List.not_mem_nil a)
    apply le_antisymm
    · obtain ⟨a, ha, hca⟩ := listMax_mem c h1
      exact hca ▸ le_listMax c ((h a).1 ha)
    · obtain ⟨a, ha, hca⟩ := listMax_mem c h2
      exact hca ▸ le_listMax c ((h a).2 ha)

theorem listMax_fsk {α : Type} [DecidableEq α] (c : α → Nat) (l : List α) :
    listMax c (fsk l) = listMax c l :=
  listMax_congr c (fun a => mem_fsk a l)

/-- Filtering out the copies of an element that fails `p` does not change
the first element satisfying `p`. -/
theorem find?_filter_ne {α : Type} [DecidableEq α] (p : α → Bool) (x : α)
    (hpx : p x = false) :
    ∀ l : List α, (l.filter (fun y => decide (y ≠ x))).find? p = l.find? p
  | [] => rfl
  | y :: ys => by
    by_cases hyx : y = x
    · subst hyx
      rw [List.filter_cons_of_neg (by simp), List.find?_cons_of_neg _ (by simp [hpx]),
        find?_filter_ne p y hpx ys]
    · rw [List.filter_cons_of_pos (by simp [hyx])]
      by_cases hpy : p y = true
      · rw [List.find?_cons_of_pos _ hpy, List.find?_cons_of_pos _ hpy]
      · rw [List.find?_cons_of_neg _ (by simpa using hpy),
          List.find?_cons_of_neg _ (by simpa using hpy),
          find?_filter_ne p x hpx ys]

/-- Scanning the distinct keys in first-seen order finds the same first
match as scanning the original list. -/
theorem find?_fsk {α : Type} [DecidableEq α] (p : α → Bool) :
    ∀ l : List α, (fsk l).find? p = l.find? p
  | [] => by rw [fsk]
  | x :: xs => by
    rw [fsk]
    by_cases hpx : p x = true
    · rw [List.find?_cons_of_pos _ hpx, List.find?_cons_of_pos _ hpx]
    · have hpx' : p x = false := by simpa using hpx
      rw [List.find?_cons_of_neg _ hpx, List.find?_cons_of_neg _ hpx,
        find?_fsk p (xs.filter _), find?_filter_ne p x hpx' xs]
termination_by l => l.length
decreasing_by
  simp only [List.length_cons]
  exact Nat.lt_succ_of_le (xs.length_filter_le _)

/-- The first match of a filtered list is the first match of the combined
predicate. -/
theorem find?_filter_eq_find?_and {α : Type} (p q : α → Bool) :
    ∀ l : List α, (l.filter p).find? q = l.find? (fun x => p x && q x)
  | [] => rfl
  | x :: xs => by
    by_cases hp : p x = true
    · rw [List.filter_cons_of_pos hp]
      by_cases hq : q x = true
      · rw [List.find?_cons_of_pos _ hq, List.find?_cons_of_pos _ (by simp [hp, hq])]
      · have hq' : q x = false := by simpa using hq
        rw [List.find?_cons_of_neg _ (by simp [hq']),
          List.find?_cons_of_neg _ (by simp [hq']),
          find?_filter_eq_find?_and p q xs]
    · have hp' : p x = false := by simpa using hp
      rw [List.filter_cons_of_neg (by simp [hp']),
        List.find?_cons_of_neg _ (by simp [hp']),
        find?_filter_eq_find?_and p q xs]

/-- The first match of a list is the head of its filtered sublist. -/
theorem find?_eq_head?_filter {α : Type} (p : α → Bool) :
    ∀ l : List α, l.find? p = (l.filter p).head?
  | [] => rfl
  | x :: xs => by
    by_cases hp : p x = true
    · rw [List.find?_cons_of_pos _ hp, List.filter_cons_of_pos hp, List.head?_cons]
    · have hp' : p x = false := by simpa using hp
      rw [List.find?_cons_of_neg _ (by simp [hp']), List.filter_cons_of_neg (by simp [hp']),
        find?_eq_head?_filter p xs]

/-! ## Counter.most_common: stable sort by descending count

`collections.Counter.most_common()` returns the counted keys sorted by
count, descending; keys with equal counts keep their first-encountered
order (CPython documented behaviour, used both by `sorted(..., reverse)`
and `heapq.nlargest`).  We embed it as a stable insertion sort of the
first-seen key list under the total preorder `countGE c`. -/

/-- Descending comparison by a count function: `a` precedes `b` when the
count of `a` is at least the count of `b`. -/
def countGE {α : Type} (c : α → Nat) : α → α → Prop := fun a b => c b ≤ c a

instance {α : Type} (c : α → Nat) : DecidableRel (countGE c) :=
  fun a b => Nat.decLe (c b) (c a)

instance {α : Type} (c : α → Nat) : IsTotal α (countGE c) :=
  ⟨fun a b => le_total (c b) (c a)⟩

instance {α : Type} (c : α → Nat) : IsTrans α (countGE c) :=
  ⟨fun _ _ _ hab hbd => le_trans hbd hab⟩

/-- The head of the descending stable sort is the first element of the
input attaining the maximal count. -/
theorem head?_insertionSort_countGE {α : Type} (c : α → Nat) :
    ∀ l : List α,
      (List.insertionSort (countGE c) l).head? =
        l.find? (fun x => c x == listMax c l)
  | [] => rfl
  | x :: xs => by
    rw [List.insertionSort]
    cases hs : List.insertionSort (countGE c) xs with
    | nil =>
      have hxs : xs = [] := by
        have hlen := List.length_insertionSort (countGE c) xs
        rw [hs] at hlen
        exact List.eq_nil_of_length_eq_zero hlen.symm
      subst hxs
      rw [List.orderedInsert, List.head?_cons,
        List.find?_cons_of_pos _ (by simp [listMax])]
    | cons y t =>
      have ih := head?_insertionSort_countGE c xs
      rw [hs, List.head?_cons] at ih
      have hy : c y = listMax c xs := by
        have := List.find?_some ih.symm
        simpa using this
      by_cases hxy : countGE c x y
      · have hxy' : c y ≤ c x := hxy
        rw [List.orderedInsert, if_pos hxy, List.head?_cons]
        have hmax : listMax c (x :: xs) = c x := by
          simp only [listMax]; omega
        rw [List.find?_cons_of_pos _ (by simp [hmax])]
      · have hlt : c x < c y := lt_of_not_le hxy
        rw [List.orderedInsert, if_neg hxy, List.head?_cons]
        have hmax : listMax c (x :: xs) = listMax c xs := by
          simp only [listMax]; omega
        rw [hmax, List.find?_cons_of_neg _ (by simp; omega)]
        exact ih

/-- Python `max(key =)` characterised: it returns the first element of the
list attaining the maximal key. -/
theorem foldl_pick_eq_find? {α : Type} (k : α → Nat) :
    ∀ (xs : List α) (b : α),
      (b :: xs).find? (fun x => k x == listMax k (b :: xs)) =
        some (xs.foldl (fun acc v => if k v > k acc then v else acc) b)
  | [], b => by
    rw [List.foldl_nil, List.find?_cons_of_pos _ (by simp [listMax])]
  | v :: vs, b => by
    rw [List.foldl_cons]
    by_cases hvb : k v > k b
    · rw [if_pos hvb]
      have hmax : listMax k (b :: v :: vs) = listMax k (v :: vs) := by
        simp only [listMax]; omega
      have hvle : k v ≤ listMax k (v :: vs) := le_listMax k (List.mem_cons_self _ _)
      rw [hmax, List.find?_cons_of_neg _ (by simp; omega)]
      exact foldl_pick_eq_find? k vs v
    · rw [if_neg hvb]
      have hvb' : k v ≤ k b := le_of_not_lt hvb
      have hmax : listMax k (b :: v :: vs) = listMax k (b :: vs) := by
        simp only [listMax]; omega
      rw [hmax]
      have ih := foldl_pick_eq_find? k vs b
      by_cases hpb : k b = listMax k (b :: vs)
      · rw [List.find?_cons_of_pos _ (by simp [hpb])] at ih
        rw [List.find?_cons_of_pos _ (by simp [hpb])]
        exact ih
      · have hble : k b ≤ listMax k (b :: vs) := le_listMax k (List.mem_cons_self _ _)
        rw [List.find?_cons_of_neg _ (by simp; omega),
          List.find?_cons_of_neg _ (by simp; omega)]
        rw [List.find?_cons_of_neg _ (by simp; omega)] at ih
        exact ih

theorem pyMax_eq_find? {α : Type} (k : α → Nat) :
    ∀ l : List α, l.find? (fun x => k x == listMax k l) = pyMax k l
  | [] => rfl
  | x :: xs => foldl_pick_eq_find? k xs x

/-- The embedding of `Counter(l).most_common()`: keys sorted by count
descending, stable in first-seen order. -/
def most_common {α : Type} [DecidableEq α] (l : List α) : List α :=
  List.insertionSort (countGE (l.count ·)) (fsk l)

/-- The leading entry of `most_common` is the first element of the list
whose count is maximal. -/
theorem most_common_head? {α : Type} [DecidableEq α] (l : List α) :
    (most_common l).head? = l.find? (fun x => l.count x == listMax (l.count ·) l) := by
  rw [most_common, head?_insertionSort_countGE, listMax_fsk, find?_fsk]

/-! ## Data model (app/models/__init__.py) -/

/-- Rubric question types.  The source enum value for the second kind is
the upper-case string "RADIO"; the constructor is written `Radio` here. -/
inductive RubricType
  | CHECKBOX
  | Radio
deriving DecidableEq

/-- Checkbox rubric decisions (string enum values "check"/"uncheck"). -/
inductive RubricDecision
  | check
  | uncheck
deriving DecidableEq

/-- Evidence location in code. -/
structure Evidence where
  file : String
  lines : String
deriving DecidableEq

/-- LLM verdict for a checkbox rubric item.  `confidence` is an integer
percentage validated to lie in `[0, 100]`. -/
structure CheckboxVerdict where
  decision : RubricDecision
  evidence : Evidence
  comment : String
  confidence : Nat
deriving DecidableEq

/-- LLM verdict for a radio rubric item. -/
structure RadioVerdict where
  selected_option : String
  evidence : Evidence
  comment : String
  confidence : Nat
deriving DecidableEq

/-- Individual rubric item to evaluate.  `options` models the optional
Python dict as an association list in insertion order. -/
structure RubricItem where
  id : String
  description : String
  points : ℚ
  type : RubricType
  options : Option (List (String × String))
deriving DecidableEq

/-- A verdict of either kind (the `Union[CheckboxVerdict, RadioVerdict]`
payload stored in `GradingDecision.verdict`). -/
inductive Verdict
  | checkbox (v : CheckboxVerdict)
  | radio (v : RadioVerdict)
deriving DecidableEq

/-- Final grading decision for a rubric item. -/
structure GradingDecision where
  rubric_item_id : String
  type : RubricType
  verdict : Verdict
  confidence : ℚ
  reasoning : Option String
deriving DecidableEq

/-- The verdict type produced by an LLM call for a given rubric kind. -/
@[reducible] def VerdictFor : RubricType → Type
  | .CHECKBOX => CheckboxVerdict
  | .Radio => RadioVerdict

/-! ## Majority voting (GradingService._majority_vote) -/

/-- The CHECKBOX branch of `GradingService._majority_vote`: tally
decisions, take the most common one, represent it by the matching verdict
of maximal confidence, and scale confidences. -/
def checkboxVote (verdicts : List CheckboxVerdict) : Option (CheckboxVerdict × ℚ) :=
  let decisions := verdicts.map (·.decision)
  match most_common decisions with
  | [] => none
  | majority_decision :: _ =>
    let majority_count := decisions.count majority_decision
    let matching_verdicts := verdicts.filter (fun v => decide (v.decision = majority_decision))
    match pyMax (·.confidence) matching_verdicts with
    | none => none
    | some best_verdict =>
      some (best_verdict,
        (majority_count : ℚ) / verdicts.length * ((best_verdict.confidence : ℚ) / 100))

/-- The clear-winner arm of the RADIO branch of
`GradingService._majority_vote`. -/
def radioWinner (verdicts : List RadioVerdict) (options : List String)
    (majority_option : String) : Option (RadioVerdict × ℚ) :=
  let majority_count := options.count majority_option
  let matching_verdicts := verdicts.filter (fun v => decide (v.selected_option = majority_option))
  match pyMax (·.confidence) matching_verdicts with
  | none => none
  | some best_verdict =>
    some (best_verdict,
      (majority_count : ℚ) / verdicts.length * ((best_verdict.confidence : ℚ) / 100))

/-- The RADIO branch of `GradingService._majority_vote`: tally selected
options via `most_common(2)`; on a tie of the two leading counts, return
the first matching verdict with confidence forced to `0.5`; otherwise the
clear winner as in the CHECKBOX branch. -/
def radioVote (verdicts : List RadioVerdict) : Option (RadioVerdict × ℚ) :=
  let options := verdicts.map (·.selected_option)
  match most_common options with
  | [] => none
  | [majority_option] => radioWinner verdicts options majority_option
  | top1 :: top2 :: _ =>
    if options.count top1 = options.count top2 then
      match verdicts.filter (fun v => decide (v.selected_option = top1)) with
      | [] => none
      | best_verdict :: _ => some (best_verdict, 1 / 2)
    else radioWinner verdicts options top1

/-- `GradingService._majority_vote`, dispatching on the rubric kind. -/
def majority_vote : (t : RubricType) → List (VerdictFor t) → Option (VerdictFor t × ℚ)
  | .CHECKBOX, verdicts => checkboxVote verdicts
  | .Radio, verdicts => radioVote verdicts

/-! ## Characterisation of the winner arm of the vote -/

/-- Python `max(matching, key = confidence)` characterised on the filtered
matching list: it yields a matching verdict of maximal confidence, and the
earliest one among equal confidences. -/
theorem pyMax_filter_characterization {α β : Type} [DecidableEq α]
    (proj : β → α) (conf : β → Nat) (verdicts : List β) (m : α)
    (hm : ∃ w ∈ verdicts, proj w = m) :
    ∃ b, pyMax conf (verdicts.filter (fun w => decide (proj w = m))) = some b ∧
      b ∈ verdicts ∧ proj b = m ∧
      (∀ w ∈ verdicts, proj w = m → conf w ≤ conf b) ∧
      verdicts.find? (fun w => decide (proj w = m) && (conf w == conf b)) = some b := by
  obtain ⟨w, hw, hwm⟩ := hm
  have hwmem : w ∈ verdicts.filter (fun w => decide (proj w = m)) :=
    List.mem_filter.2 ⟨hw, by simp [hwm]⟩
  have hfind := pyMax_eq_find? conf (verdicts.filter (fun w => decide (proj w = m)))
  cases hpy : pyMax conf (verdicts.filter (fun w => decide (proj w = m))) with
  | none =>
    rw [hpy, List.find?_eq_none] at hfind
    obtain ⟨a, ha, hca⟩ :=
      listMax_mem conf (List.ne_nil_of_mem hwmem)
    exact absurd (by simp [hca]) (hfind a ha)
  | some b =>
    rw [hpy] at hfind
    have hb_mem := List.mem_of_find?_eq_some hfind
    have hb_max : conf b = listMax conf (verdicts.filter (fun w => decide (proj w = m))) := by
      have := List.find?_some hfind
      simpa using this
    refine ⟨b, rfl, (List.mem_filter.1 hb_mem).1, ?_, ?_, ?_⟩
    · have := (List.mem_filter.1 hb_mem).2
      simpa using this
    · intro u hu hum
      have hu_mem : u ∈ verdicts.filter (fun w => decide (proj w = m)) :=
        List.mem_filter.2 ⟨hu, by simp [hum]⟩
      exact hb_max ▸ le_listMax conf hu_mem
    · rw [← find?_filter_eq_find?_and]
      rw [← hb_max] at hfind
      exact hfind

/-- On a non-empty list, `most_common` starts with the first element of
the list attaining the maximal count. -/
theorem most_common_cons {α : Type} [DecidableEq α] (x : α) (xs : List α) :
    ∃ m rest, most_common (x :: xs) = m :: rest ∧
      (x :: xs).find?
        (fun a => (x :: xs).count a == listMax ((x :: xs).count ·) (x :: xs)) = some m ∧
      (x :: xs).count m = listMax ((x :: xs).count ·) (x :: xs) ∧
      m ∈ x :: xs := by
  obtain ⟨a, ha, hca⟩ := listMax_mem ((x :: xs).count ·) (List.cons_ne_nil x xs)
  have hsome : ((x :: xs).find?
      (fun a => (x :: xs).count a == listMax ((x :: xs).count ·) (x :: xs))).isSome :=
    List.find?_isSome.2 ⟨a, ha, by simp [hca]⟩
  obtain ⟨m, hm⟩ := Option.isSome_iff_exists.1 hsome
  have hhead := most_common_head? (x :: xs)
  rw [hm] at hhead
  cases hmc : most_common (x :: xs) with
  | nil => rw [hmc] at hhead; exact absurd hhead (by simp)
  | cons m' rest =>
    rw [hmc, List.head?_cons] at hhead
    have hm' : m' = m := by simpa using hhead
    subst hm'
    have hpm := List.find?_some hm
    exact ⟨m', rest, rfl, hm, by simpa using hpm, List.mem_of_find?_eq_some hm⟩

/-- Computation lemma for the CHECKBOX vote. -/
theorem checkboxVote_eq_of (verdicts : List CheckboxVerdict) (m : RubricDecision)
    (rest : List RubricDecision) (b : CheckboxVerdict)
    (hmc : most_common (verdicts.map (·.decision)) = m :: rest)
    (hpy : pyMax (·.confidence)
      (verdicts.filter (fun v => decide (v.decision = m))) = some b) :
    checkboxVote verdicts =
      some (b, ((verdicts.map (·.decision)).count m : ℚ) / verdicts.length *
        ((b.confidence : ℚ) / 100)) := by
  simp only [checkboxVote, hmc, hpy]

/-- C3: for every non-empty list of BINARY (checkbox) verdicts, majority
vote returns a verdict whose decision is the most frequent decision value;
the representative is the verdict with the highest reported confidence
among those holding that decision, ties among equal confidences resolved
by first-seen order; and the returned confidence equals
(majorityCount / totalVerdicts) * (representative.confidence / 100). -/
theorem claim_C3_checkbox_majority_vote (v : CheckboxVerdict) (vs : List CheckboxVerdict) :
    ∃ b, checkboxVote (v :: vs) =
        some (b, (((v :: vs).map (·.decision)).count b.decision : ℚ) / (v :: vs).length *
          ((b.confidence : ℚ) / 100)) ∧
      b ∈ v :: vs ∧
      (∀ w ∈ v :: vs, ((v :: vs).map (·.decision)).count w.decision ≤
        ((v :: vs).map (·.decision)).count b.decision) ∧
      (∀ w ∈ v :: vs, w.decision = b.decision → w.confidence ≤ b.confidence) ∧
      (v :: vs).find?
        (fun w => decide (w.decision = b.decision) && (w.confidence == b.confidence)) =
        some b := by
  obtain ⟨m, rest, hmc, hfind, hcount, hmem⟩ :=
    most_common_cons v.decision (vs.map (·.decision))
  have hmem' : m ∈ (v :: vs).map (·.decision) := hmem
  obtain ⟨w, hw, hwm⟩ := List.mem_map.1 hmem'
  obtain ⟨b, hpy, hbmem, hbm, hbconf, hbfind⟩ :=
    pyMax_filter_characterization (fun w => w.decision) (fun w => w.confidence)
      (v :: vs) m ⟨w, hw, hwm⟩
  have heq := checkboxVote_eq_of (v :: vs) m rest b hmc hpy
  subst hbm
  refine ⟨b, heq, hbmem, ?_, hbconf, hbfind⟩
  intro u hu
  have hu' : u.decision ∈ (v :: vs).map (·.decision) := List.mem_map_of_mem _ hu
  have hle := le_listMax (((v :: vs).map (·.decision)).count ·) hu'
  exact hcount ▸ hle

/-- C10: for every non-empty list of BINARY verdicts in which the check
and uncheck decisions occur equally often, majority vote resolves to the
decision value of the first verdict in the list, takes the
highest-confidence verdict holding that decision as representative (ties
first-seen), and returns confidence (count/total) * (confidence/100);
the confidence is not forced to 0.5 as in the CHOICE tie case. -/
theorem claim_C10_checkbox_tie (v : CheckboxVerdict) (vs : List CheckboxVerdict)
    (htie : ((v :: vs).map (·.decision)).count RubricDecision.check =
      ((v :: vs).map (·.decision)).count RubricDecision.uncheck) :
    ∃ b, checkboxVote (v :: vs) =
        some (b, (((v :: vs).map (·.decision)).count b.decision : ℚ) / (v :: vs).length *
          ((b.confidence : ℚ) / 100)) ∧
      b.decision = v.decision ∧
      (∀ w ∈ v :: vs, w.decision = b.decision → w.confidence ≤ b.confidence) ∧
      (v :: vs).find?
        (fun w => decide (w.decision = b.decision) && (w.confidence == b.confidence)) =
        some b := by
  obtain ⟨m, rest, hmc, hfind, hcount, hmem⟩ :=
    most_common_cons v.decision (vs.map (·.decision))
  have hall : ∀ a, ((v :: vs).map (·.decision)).count a =
      ((v :: vs).map (·.decision)).count RubricDecision.check := by
    intro a; cases a
    · rfl
    · exact htie.symm
  have hlm : listMax (((v :: vs).map (·.decision)).count ·) ((v :: vs).map (·.decision)) =
      ((v :: vs).map (·.decision)).count RubricDecision.check := by
    have hne : (v :: vs).map (·.decision) ≠ [] := by simp
    obtain ⟨a, ha, hca⟩ := listMax_mem (((v :: vs).map (·.decision)).count ·) hne
    rw [← hca, hall a]
  have hfind' : ((v :: vs).map (·.decision)).find?
      (fun a => ((v :: vs).map (·.decision)).count a ==
        listMax (((v :: vs).map (·.decision)).count ·) ((v :: vs).map (·.decision))) =
      some m := hfind
  have hfirst : ((v :: vs).map (·.decision)).find?
      (fun a => ((v :: vs).map (·.decision)).count a ==
        listMax (((v :: vs).map (·.decision)).count ·) ((v :: vs).map (·.decision))) =
      some v.decision := by
    have hmap : (v :: vs).map (·.decision) = v.decision :: vs.map (·.decision) := rfl
    rw [hmap, List.find?_cons_of_pos]
    rw [← hmap, hlm, hall v.decision]
    simp
  have hm_eq : m = v.decision := by
    rw [hfind'] at hfirst
    exact (by simpa using hfirst.symm : v.decision = m).symm
  have hmem' : m ∈ (v :: vs).map (·.decision) := hmem
  obtain ⟨w, hw, hwm⟩ := List.mem_map.1 hmem'
  obtain ⟨b, hpy, hbmem, hbm, hbconf, hbfind⟩ :=
    pyMax_filter_characterization (fun w => w.decision) (fun w => w.confidence)
      (v :: vs) m ⟨w, hw, hwm⟩
  have heq := checkboxVote_eq_of (v :: vs) m rest b hmc hpy
  subst hbm
  exact ⟨b, heq, hm_eq, hbconf, hbfind⟩

theorem most_common_mem {α : Type} [DecidableEq α] {l : List α} {x : α} :
    x ∈ most_common l ↔ x ∈ l :=
  ((List.perm_insertionSort _ _).mem_iff).trans (mem_fsk x l)

theorem most_common_nodup {α : Type} [DecidableEq α] (l : List α) :
    (most_common l).Nodup :=
  ((List.perm_insertionSort _ _).nodup_iff).2 (nodup_fsk l)

/-- If two distinct values both attain the maximal count, `most_common`
starts with two entries of equal (maximal) count: the tie branch of the
RADIO vote fires. -/
theorem most_common_tie {α : Type} [DecidableEq α] (l : List α) (a b : α)
    (hab : a ≠ b) (ha : a ∈ l) (hb : b ∈ l)
    (hca : l.count a = listMax (l.count ·) l)
    (hcb : l.count b = listMax (l.count ·) l) :
    ∃ t1 t2 rest, most_common l = t1 :: t2 :: rest ∧
      l.count t1 = l.count t2 ∧
      l.count t1 = listMax (l.count ·) l := by
  have hmemA : a ∈ most_common l := most_common_mem.2 ha
  have hmemB : b ∈ most_common l := most_common_mem.2 hb
  have hsort : (most_common l).Sorted (countGE (l.count ·)) :=
    List.sorted_insertionSort _ _
  cases hmc : most_common l with
  | nil => rw [hmc] at hmemA; exact absurd hmemA (List.not_mem_nil a)
  | cons t1 tail =>
    cases tail with
    | nil =>
      rw [hmc] at hmemA hmemB
      have h1 : a = t1 := by simpa using hmemA
      have h2 : b = t1 := by simpa using hmemB
      exact absurd (h1.trans h2.symm) hab
    | cons t2 rest =>
      rw [hmc] at hsort hmemA hmemB
      have hhead := most_common_head? l
      rw [hmc, List.head?_cons] at hhead
      have ht1 : l.count t1 = listMax (l.count ·) l := by
        simpa using List.find?_some hhead.symm
      have ht2le : l.count t2 ≤ l.count t1 :=
        List.rel_of_sorted_cons hsort t2 (List.mem_cons_self t2 rest)
      obtain ⟨x, hx_ne, hx_mem, hx_cnt⟩ :
          ∃ x, x ≠ t1 ∧ x ∈ t1 :: t2 :: rest ∧ l.count x = listMax (l.count ·) l := by
        rcases eq_or_ne a t1 with rfl | hat1
        · exact ⟨b, fun h => hab h.symm, hmemB, hcb⟩
        · exact ⟨a, hat1, hmemA, hca⟩
      have hx_tail : x ∈ t2 :: rest := by
        rcases List.mem_cons.1 hx_mem with h | h
        · exact absurd h hx_ne
        · exact h
      have hxle : l.count x ≤ l.count t2 := by
        rcases List.mem_cons.1 hx_tail with rfl | h
        · exact le_refl _
        · exact List.rel_of_sorted_cons hsort.of_cons x h
      exact ⟨t1, t2, rest, rfl, by omega, ht1⟩

/-- If a single value strictly dominates every other count, `most_common`
starts with it and no tie of leading counts occurs: the clear-winner
branch of the RADIO vote fires. -/
theorem most_common_strict {α : Type} [DecidableEq α] (l : List α) (a : α)
    (ha : a ∈ l) (hstrict : ∀ x ∈ l, x ≠ a → l.count x < l.count a) :
    most_common l = [a] ∨
      ∃ t2 rest, most_common l = a :: t2 :: rest ∧ l.count t2 ≠ l.count a := by
  have hM : l.count a = listMax (l.count ·) l := by
    refine le_antisymm (le_listMax (l.count ·) ha) ?_
    obtain ⟨x, hx, hcx⟩ := listMax_mem (l.count ·) (List.ne_nil_of_mem ha)
    rcases eq_or_ne x a with rfl | hxa
    · exact le_of_eq hcx.symm
    · have := hstrict x hx hxa
      omega
  have hmemA : a ∈ most_common l := most_common_mem.2 ha
  cases hmc : most_common l with
  | nil => rw [hmc] at hmemA; exact absurd hmemA (List.not_mem_nil a)
  | cons t1 tail =>
    have hhead := most_common_head? l
    rw [hmc, List.head?_cons] at hhead
    have ht1 : l.count t1 = listMax (l.count ·) l := by
      simpa using List.find?_some hhead.symm
    have ht1l : t1 ∈ l := most_common_mem.1 (hmc ▸ List.mem_cons_self t1 tail)
    have ht1a : t1 = a := by
      by_contra hne
      have := hstrict t1 ht1l hne
      omega
    subst ht1a
    cases tail with
    | nil => exact Or.inl rfl
    | cons t2 rest =>
      refine Or.inr ⟨t2, rest, rfl, ?_⟩
      have hnd : (t1 :: t2 :: rest).Nodup := hmc ▸ most_common_nodup l
      have ht2ne : t2 ≠ t1 := by
        intro h
        exact (List.nodup_cons.1 hnd).1 (h ▸ List.mem_cons_self t2 rest)
      have ht2l : t2 ∈ l :=
        most_common_mem.1 (hmc ▸ List.mem_cons_of_mem t1 (List.mem_cons_self t2 rest))
      have := hstrict t2 ht2l ht2ne
      omega

/-- Computation lemma for the clear-winner arm of the RADIO vote. -/
theorem radioWinner_eq_of (verdicts : List RadioVerdict) (options : List String)
    (m : String) (b : RadioVerdict)
    (hpy : pyMax (·.confidence)
      (verdicts.filter (fun u => decide (u.selected_option = m))) = some b) :
    radioWinner verdicts options m =
      some (b, (options.count m : ℚ) / verdicts.length * ((b.confidence : ℚ) / 100)) := by
  simp only [radioWinner, hpy]

theorem radioVote_eq_winner_single (verdicts : List RadioVerdict) (t1 : String)
    (hmc : most_common (verdicts.map (·.selected_option)) = [t1]) :
    radioVote verdicts = radioWinner verdicts (verdicts.map (·.selected_option)) t1 := by
  simp only [radioVote, hmc]

theorem radioVote_eq_winner_cons (verdicts : List RadioVerdict) (t1 t2 : String)
    (rest : List String)
    (hmc : most_common (verdicts.map (·.selected_option)) = t1 :: t2 :: rest)
    (hcnt : (verdicts.map (·.selected_option)).count t1 ≠
      (verdicts.map (·.selected_option)).count t2) :
    radioVote verdicts = radioWinner verdicts (verdicts.map (·.selected_option)) t1 := by
  simp only [radioVote, hmc, if_neg hcnt]

theorem radioVote_eq_tie (verdicts : List RadioVerdict) (t1 t2 : String)
    (rest : List String) (best : RadioVerdict) (tail : List RadioVerdict)
    (hmc : most_common (verdicts.map (·.selected_option)) = t1 :: t2 :: rest)
    (hcnt : (verdicts.map (·.selected_option)).count t1 =
      (verdicts.map (·.selected_option)).count t2)
    (hfil : verdicts.filter (fun u => decide (u.selected_option = t1)) = best :: tail) :
    radioVote verdicts = some (best, 1 / 2) := by
  simp only [radioVote, hmc, if_pos hcnt, hfil]

/-- C4: for every non-empty list of CHOICE (radio) verdicts:
if two distinct options both attain the maximal selection count (the two
most frequent counts are tied), the vote resolves to the first-seen
verdict matching the first-seen tied leading option, with confidence
forced to exactly 1/2; when one option has a strict majority, the vote
instead picks the highest-confidence verdict for that option (first-seen
among equal confidences) and computes confidence as
(majorityCount / totalVerdicts) * (confidence / 100). -/
theorem claim_C4_radio_tie_and_majority (v : RadioVerdict) (vs : List RadioVerdict) :
    ((∃ a b, a ≠ b ∧ a ∈ (v :: vs).map (·.selected_option) ∧
        b ∈ (v :: vs).map (·.selected_option) ∧
        ((v :: vs).map (·.selected_option)).count a =
          listMax (((v :: vs).map (·.selected_option)).count ·)
            ((v :: vs).map (·.selected_option)) ∧
        ((v :: vs).map (·.selected_option)).count b =
          listMax (((v :: vs).map (·.selected_option)).count ·)
            ((v :: vs).map (·.selected_option))) →
      ∃ w, radioVote (v :: vs) = some (w, 1 / 2) ∧
        ((v :: vs).map (·.selected_option)).count w.selected_option =
          listMax (((v :: vs).map (·.selected_option)).count ·)
            ((v :: vs).map (·.selected_option)) ∧
        ((v :: vs).map (·.selected_option)).find?
          (fun o => ((v :: vs).map (·.selected_option)).count o ==
            listMax (((v :: vs).map (·.selected_option)).count ·)
              ((v :: vs).map (·.selected_option))) = some w.selected_option ∧
        (v :: vs).find? (fun u => decide (u.selected_option = w.selected_option)) =
          some w) ∧
    (∀ a, a ∈ (v :: vs).map (·.selected_option) →
      (∀ x ∈ (v :: vs).map (·.selected_option), x ≠ a →
        ((v :: vs).map (·.selected_option)).count x <
          ((v :: vs).map (·.selected_option)).count a) →
      ∃ b, radioVote (v :: vs) =
          some (b, (((v :: vs).map (·.selected_option)).count a : ℚ) / (v :: vs).length *
            ((b.confidence : ℚ) / 100)) ∧
        b.selected_option = a ∧
        (∀ u ∈ v :: vs, u.selected_option = a → u.confidence ≤ b.confidence) ∧
        (v :: vs).find?
          (fun u => decide (u.selected_option = a) && (u.confidence == b.confidence)) =
          some b) := by
  constructor
  · rintro ⟨a, b, hab, ha, hb, hca, hcb⟩
    obtain ⟨t1, t2, rest, hmc, hcnt, ht1M⟩ :=
      most_common_tie ((v :: vs).map (·.selected_option)) a b hab ha hb hca hcb
    have ht1opts : t1 ∈ (v :: vs).map (·.selected_option) :=
      most_common_mem.1 (hmc ▸ List.mem_cons_self t1 (t2 :: rest))
    obtain ⟨w0, hw0, hw0t⟩ := List.mem_map.1 ht1opts
    cases hfil : (v :: vs).filter (fun u => decide (u.selected_option = t1)) with
    | nil =>
      have : w0 ∈ (v :: vs).filter (fun u => decide (u.selected_option = t1)) :=
        List.mem_filter.2 ⟨hw0, by simp [hw0t]⟩
      rw [hfil] at this
      exact absurd this (List.not_mem_nil w0)
    | cons best tail =>
      have heq := radioVote_eq_tie (v :: vs) t1 t2 rest best tail hmc hcnt hfil
      have hbest_mem : best ∈ (v :: vs).filter (fun u => decide (u.selected_option = t1)) :=
        hfil ▸ List.mem_cons_self best tail
      have hbsel : best.selected_option = t1 := by
        have := (List.mem_filter.1 hbest_mem).2
        simpa using this
      refine ⟨best, heq, ?_, ?_, ?_⟩
      · rw [hbsel]; exact ht1M
      · have hhead := most_common_head? ((v :: vs).map (·.selected_option))
        rw [hmc, List.head?_cons] at hhead
        rw [hbsel]
        exact hhead.symm
      · rw [hbsel, find?_eq_head?_filter, hfil, List.head?_cons]
  · intro a hamem hstrict
    obtain hcase := most_common_strict ((v :: vs).map (·.selected_option)) a hamem hstrict
    obtain ⟨w0, hw0, hw0t⟩ := List.mem_map.1 hamem
    obtain ⟨b, hpy, hbmem, hbsel, hbconf, hbfind⟩ :=
      pyMax_filter_characterization (fun u => u.selected_option) (fun u => u.confidence)
        (v :: vs) a ⟨w0, hw0, hw0t⟩
    have hwin : radioVote (v :: vs) =
        radioWinner (v :: vs) ((v :: vs).map (·.selected_option)) a := by
      rcases hcase with h1 | ⟨t2, rest, h2, hne⟩
      · exact radioVote_eq_winner_single _ _ h1
      · exact radioVote_eq_winner_cons _ _ _ _ h2 (Ne.symm hne)
    have heq := radioWinner_eq_of (v :: vs) ((v :: vs).map (·.selected_option)) a b hpy
    exact ⟨b, hwin.trans heq, hbsel, hbconf, hbfind⟩

/-! ## Exceptions and retry classification (app/services/llm/service.py) -/

/-- The exception classes distinguished by `is_retryable_error`, plus the
non-retryable failures that can reach it (parse failures raise
`ValueError`, anything else is some other exception class). -/
inductive PyException
  | httpxTimeout
  | httpxConnectError
  | httpxReadError
  | httpxHTTPStatusError (status : Nat)
  | anthropicRateLimitError
  | anthropicInternalServerError
  | anthropicAPITimeoutError
  | anthropicAPIConnectionError
  | openaiRateLimitError
  | openaiInternalServerError
  | openaiAPITimeoutError
  | openaiAPIConnectionError
  | valueError (msg : String)
  | otherError (name : String)
deriving DecidableEq

/-- `is_retryable_error` from app/services/llm/service.py: the isinstance
cascade deciding whether an exception should be retried. -/
def is_retryable_error : PyException → Bool
  | .httpxTimeout => true
  | .httpxConnectError => true
  | .httpxReadError => true
  | .httpxHTTPStatusError status =>
    status == 429 || status == 500 || status == 502 || status == 503 || status == 504
  | .anthropicRateLimitError => true
  | .anthropicInternalServerError => true
  | .anthropicAPITimeoutError => true
  | .openaiRateLimitError => true
  | .openaiInternalServerError => true
  | .openaiAPITimeoutError => true
  | .openaiAPIConnectionError => true
  | .anthropicAPIConnectionError => true
  | .valueError _ => false
  | .otherError _ => false

/-! ## Configuration (app/core/config.py) -/

/-- The settings consumed by the grading service. -/
structure Settings where
  parallel_llm_calls : Nat
  batch_size : Nat
  batch_processing_delay : ℚ
  max_requests_per_minute : Nat
  max_tokens_per_minute : Nat
  llm_max_retries : Nat
deriving DecidableEq

/-- The default values declared in app/core/config.py. -/
def defaultSettings : Settings :=
  { parallel_llm_calls := 1
    batch_size := 100
    batch_processing_delay := 1 / 20
    max_requests_per_minute := 8000
    max_tokens_per_minute := 24000000
    llm_max_retries := 3 }

/-! ## Retry loop (tenacity decorator on LLMService.evaluate_rubric_item)

`stop_after_attempt(llm_max_retries)` with `reraise=True` and
`retry_if_exception(is_retryable_error)`: at most `llm_max_retries`
attempts; a non-retryable failure is re-raised immediately; a retryable
failure on the last allowed attempt is re-raised.  `call i` is the
outcome of the i-th attempt; the second component of the result counts
the attempts actually made.  The backoff wait times do not affect the
result value and are not modelled. -/

def retryLoop {α : Type} (call : Nat → Except PyException α) :
    Nat → Nat → Except PyException α × Nat
  | k, 0 =>
    match call k with
    | .ok v => (.ok v, k + 1)
    | .error e => (.error e, k + 1)
  | k, rem + 1 =>
    match call k with
    | .ok v => (.ok v, k + 1)
    | .error e =>
      if is_retryable_error e then retryLoop call (k + 1) rem
      else (.error e, k + 1)

/-- The retry-wrapped LLM call. -/
def evaluate_with_retry {α : Type} (s : Settings)
    (call : Nat → Except PyException α) : Except PyException α × Nat :=
  retryLoop call 0 (s.llm_max_retries - 1)

/-! ## Rubric evaluator (GradingService._evaluate_rubric_item) -/

instance (t : RubricType) : DecidableEq (VerdictFor t) :=
  match t with
  | .CHECKBOX => inferInstanceAs (DecidableEq CheckboxVerdict)
  | .Radio => inferInstanceAs (DecidableEq RadioVerdict)

/-- The wrapper placing a kind-indexed verdict into the untyped
`GradingDecision.verdict` field. -/
def Verdict.ofKind : (t : RubricType) → VerdictFor t → Verdict
  | .CHECKBOX, w => .checkbox w
  | .Radio, w => .radio w

/-- The outcomes of the `parallel_llm_calls` concurrent LLM calls issued
for one rubric item.  `outcome i` abstracts the result of the i-th call
(a parsed verdict, or the exception that made it fail). -/
def llm_call_results (s : Settings) {t : RubricType}
    (outcome : Nat → Except PyException (VerdictFor t)) :
    List (Except PyException (VerdictFor t)) :=
  (List.range s.parallel_llm_calls).map outcome

/-- The surviving verdicts: exceptions filtered out, order preserved. -/
def valid_verdicts (s : Settings) {t : RubricType}
    (outcome : Nat → Except PyException (VerdictFor t)) : List (VerdictFor t) :=
  (llm_call_results s outcome).filterMap (fun r =>
    match r with
    | .ok v => some v
    | .error _ => none)

/-- The comment attached to both fallback verdict kinds. -/
def manual_review_comment : String :=
  "Unable to evaluate automatically - please review manually"

/-- `GradingService._create_fallback_decision`: the deterministic decision
used when every LLM call for an item failed. -/
def create_fallback_decision (item : RubricItem) : GradingDecision :=
  let verdict : Verdict :=
    match item.type with
    | .CHECKBOX =>
      .checkbox { decision := .check
                  evidence := { file := "unknown", lines := "0-0" }
                  comment := manual_review_comment
                  confidence := 0 }
    | .Radio =>
      .radio { selected_option :=
                 match item.options with
                 | some ((k, _) :: _) => k
                 | some [] => "Q"
                 | none => "Q"
               evidence := { file := "unknown", lines := "0-0" }
               comment := manual_review_comment
               confidence := 0 }
  { rubric_item_id := item.id
    type := item.type
    verdict := verdict
    confidence := 0
    reasoning := some "All LLM evaluation attempts failed" }

/-- Insertion-ordered rendering of a Counter, used by the reasoning
string.  (The exact punctuation of the CPython dict repr is abbreviated;
theorems only rely on the fixed prefix of the reasoning.) -/
def renderCounts {α : Type} [DecidableEq α] (keyStr : α → String) (l : List α) : String :=
  String.intercalate ", " ((fsk l).map (fun k => keyStr k ++ ": " ++ toString (l.count k)))

/-- The string value of a checkbox decision enum. -/
def decisionStr : RubricDecision → String
  | .check => "check"
  | .uncheck => "uncheck"

/-- Mean confidence of the surviving verdicts. -/
def avgConfidence (confs : List Nat) : ℚ := (confs.sum : ℚ) / confs.length

/-- `GradingService._generate_reasoning`: voting tallies plus the average
confidence.  (Number formatting abbreviated; the prefix is exact.) -/
def generate_reasoning : (t : RubricType) → List (VerdictFor t) → String
  | _, [] => "No valid evaluations"
  | .CHECKBOX, v :: rest =>
    "Voting results: " ++ (renderCounts decisionStr ((v :: rest).map (·.decision)) ++
      (". Average confidence: " ++
        (toString (avgConfidence ((v :: rest).map (·.confidence))) ++ "%")))
  | .Radio, v :: rest =>
    "Voting results: " ++ (renderCounts (fun o => o) ((v :: rest).map (·.selected_option)) ++
      (". Average confidence: " ++
        (toString (avgConfidence ((v :: rest).map (·.confidence))) ++ "%")))

/-- `GradingService._evaluate_rubric_item`: run the parallel calls,
collect the surviving verdicts, fall back if none survived, otherwise
vote.  (The `none` arm of the vote is unreachable: the vote is total on
non-empty input.) -/
def evaluate_rubric_item (s : Settings) (item : RubricItem)
    (outcome : Nat → Except PyException (VerdictFor item.type)) : GradingDecision :=
  let valid := valid_verdicts s outcome
  if valid = [] then create_fallback_decision item
  else
    match majority_vote item.type valid with
    | none => create_fallback_decision item
    | some (final_verdict, confidence) =>
      { rubric_item_id := item.id
        type := item.type
        verdict := Verdict.ofKind item.type final_verdict
        confidence := confidence
        reasoning := some (generate_reasoning item.type valid) }

/-! ## Totality of the vote on non-empty input, and the fallback/consensus
separation -/

theorem checkboxVote_isSome (v : CheckboxVerdict) (vs : List CheckboxVerdict) :
    ∃ p, checkboxVote (v :: vs) = some p := by
  obtain ⟨m, rest, hmc, _, _, hmem⟩ := most_common_cons v.decision (vs.map (·.decision))
  have hmem' : m ∈ (v :: vs).map (·.decision) := hmem
  obtain ⟨w, hw, hwm⟩ := List.mem_map.1 hmem'
  obtain ⟨b, hpy, -, -, -, -⟩ :=
    pyMax_filter_characterization (fun u => u.decision) (fun u => u.confidence)
      (v :: vs) m ⟨w, hw, hwm⟩
  exact ⟨_, checkboxVote_eq_of (v :: vs) m rest b hmc hpy⟩

set_option maxHeartbeats 1000000 in
theorem radioVote_isSome (v : RadioVerdict) (vs : List RadioVerdict) :
    ∃ p, radioVote (v :: vs) = some p := by
  obtain ⟨m, rest, hmc, -, -, hmem⟩ :=
    most_common_cons v.selected_option (vs.map (·.selected_option))
  have hmem' : m ∈ (v :: vs).map (·.selected_option) := hmem
  obtain ⟨w, hw, hwm⟩ := List.mem_map.1 hmem'
  cases rest with
  | nil =>
    obtain ⟨b, hpy, -, -, -, -⟩ :=
      pyMax_filter_characterization (fun u => u.selected_option) (fun u => u.confidence)
        (v :: vs) m ⟨w, hw, hwm⟩
    exact ⟨_, (radioVote_eq_winner_single (v :: vs) m hmc).trans
      (radioWinner_eq_of (v :: vs) ((v :: vs).map (·.selected_option)) m b hpy)⟩
  | cons t2 rest' =>
    by_cases htie : ((v :: vs).map (·.selected_option)).count m =
        ((v :: vs).map (·.selected_option)).count t2
    · cases hfil : (v :: vs).filter (fun u => decide (u.selected_option = m)) with
      | nil =>
        have : w ∈ (v :: vs).filter (fun u => decide (u.selected_option = m)) :=
          List.mem_filter.2 ⟨hw, by simp [hwm]⟩
        rw [hfil] at this
        exact absurd this (List.not_mem_nil w)
      | cons best tail =>
        exact ⟨_, radioVote_eq_tie (v :: vs) m t2 rest' best tail hmc htie hfil⟩
    · obtain ⟨b, hpy, -, -, -, -⟩ :=
        pyMax_filter_characterization (fun u => u.selected_option) (fun u => u.confidence)
          (v :: vs) m ⟨w, hw, hwm⟩
      exact ⟨_, (radioVote_eq_winner_cons (v :: vs) m t2 rest' hmc htie).trans
        (radioWinner_eq_of (v :: vs) ((v :: vs).map (·.selected_option)) m b hpy)⟩

theorem majority_vote_isSome :
    ∀ (t : RubricType) (valid : List (VerdictFor t)), valid ≠ [] →
      ∃ p, majority_vote t valid = some p
  | .CHECKBOX, [], h => absurd rfl h
  | .CHECKBOX, v :: vs, _ => checkboxVote_isSome v vs
  | .Radio, [], h => absurd rfl h
  | .Radio, v :: vs, _ => radioVote_isSome v vs

theorem generate_reasoning_prefix :
    ∀ (t : RubricType) (v : VerdictFor t) (rest : List (VerdictFor t)),
      ∃ r, generate_reasoning t (v :: rest) = "Voting results: " ++ r
  | .CHECKBOX, _, _ => ⟨_, rfl⟩
  | .Radio, _, _ => ⟨_, rfl⟩

theorem voting_prefix_ne (r : String) :
    ("Voting results: " ++ r) ≠ "All LLM evaluation attempts failed" := by
  intro h
  have hd : ("Voting results: " ++ r).data = "All LLM evaluation attempts failed".data :=
    congrArg String.data h
  have happ : ("Voting results: " ++ r).data = "Voting results: ".data ++ r.data := by
    rcases r with ⟨rdata⟩
    rfl
  rw [happ,
    show ("Voting results: ".data : List Char) = 'V' :: "oting results: ".data from rfl,
    List.cons_append,
    show ("All LLM evaluation attempts failed".data : List Char) =
      'A' :: "ll LLM evaluation attempts failed".data from rfl] at hd
  injection hd with h1 _
  exact absurd h1 (by decide)

/-- C5: the evaluator issues exactly `parallel_llm_calls` calls, and
whenever at least one call succeeded (the surviving verdict set is
non-empty) it returns the consensus result over the surviving verdicts as
a GradingDecision, not the fallback decision. -/
theorem claim_C5_evaluator_consensus (s : Settings) (item : RubricItem)
    (outcome : Nat → Except PyException (VerdictFor item.type))
    (h : valid_verdicts s outcome ≠ []) :
    (llm_call_results s outcome).length = s.parallel_llm_calls ∧
    ∃ final_verdict confidence,
      majority_vote item.type (valid_verdicts s outcome) = some (final_verdict, confidence) ∧
      evaluate_rubric_item s item outcome =
        { rubric_item_id := item.id
          type := item.type
          verdict := Verdict.ofKind item.type final_verdict
          confidence := confidence
          reasoning := some (generate_reasoning item.type (valid_verdicts s outcome)) } ∧
      evaluate_rubric_item s item outcome ≠ create_fallback_decision item := by
  refine ⟨by simp [llm_call_results], ?_⟩
  obtain ⟨⟨final_verdict, confidence⟩, hvote⟩ :=
    majority_vote_isSome item.type (valid_verdicts s outcome) h
  have heval : evaluate_rubric_item s item outcome =
      { rubric_item_id := item.id
        type := item.type
        verdict := Verdict.ofKind item.type final_verdict
        confidence := confidence
        reasoning := some (generate_reasoning item.type (valid_verdicts s outcome)) } := by
    simp only [evaluate_rubric_item]
    rw [if_neg h, hvote]
  refine ⟨final_verdict, confidence, hvote, heval, ?_⟩
  rw [heval]
  intro hfall
  have hreason := congrArg GradingDecision.reasoning hfall
  simp only [create_fallback_decision] at hreason
  have hreason' : generate_reasoning item.type (valid_verdicts s outcome) =
      "All LLM evaluation attempts failed" := by
    simpa using hreason
  cases hv : valid_verdicts s outcome with
  | nil => exact h hv
  | cons v rest =>
    rw [hv] at hreason'
    obtain ⟨r, hr⟩ := generate_reasoning_prefix item.type v rest
    rw [hr] at hreason'
    exact voting_prefix_ne r hreason'

/-- Concrete CHECKBOX rubric item used by witnesses. -/
def exCheckboxItem : RubricItem :=
  { id := "RbA3C2"
    description := "Proper error handling for edge cases"
    points := -2
    type := .CHECKBOX
    options := none }

/-- Concrete RADIO rubric item used by witnesses. -/
def exRadioItem : RubricItem :=
  { id := "RbB1X4"
    description := "Implementation completeness"
    points := 0
    type := .Radio
    options := some [("complete", "All methods implemented"), ("missing", "Some methods missing")] }

/-- A call trace in which every parallel call fails with a timeout. -/
def exFailOutcome : Nat → Except PyException (VerdictFor exCheckboxItem.type) :=
  fun _ => .error .httpxTimeout

/-- A call trace in which every parallel call succeeds. -/
def exOkOutcome : Nat → Except PyException (VerdictFor exCheckboxItem.type) :=
  fun _ => .ok { decision := .check
                 evidence := { file := "main.cpp", lines := "1-2" }
                 comment := "ok"
                 confidence := 80 }

theorem claim_C5_witness :
    valid_verdicts defaultSettings exOkOutcome ≠ [] ∧
    evaluate_rubric_item defaultSettings exCheckboxItem exOkOutcome ≠
      create_fallback_decision exCheckboxItem := by
  refine ⟨by decide, ?_⟩
  obtain ⟨-, -, -, -, -, hne⟩ :=
    claim_C5_evaluator_consensus defaultSettings exCheckboxItem exOkOutcome (by decide)
  exact hne

/-- C6 as stated claims the fallback reasoning string is
"all evaluation attempts failed"; the code uses
"All LLM evaluation attempts failed", so the claimed string is wrong at
this concrete input. -/
theorem claim_C6_counterexample :
    (evaluate_rubric_item defaultSettings exCheckboxItem exFailOutcome).reasoning ≠
      some "all evaluation attempts failed" := by decide

/-- C6 (amended): when the surviving verdict set is empty, the evaluator
returns the fallback decision: confidence 0.0, reasoning
"All LLM evaluation attempts failed", and a conservative default verdict:
for BINARY the decision is check (award) with a manual-review comment;
for CHOICE the decision is the first declared option key with the same
comment.  Every rubric item therefore always yields exactly one
decision. -/
theorem claim_C6_fallback (s : Settings) (item : RubricItem)
    (outcome : Nat → Except PyException (VerdictFor item.type))
    (h : valid_verdicts s outcome = []) :
    evaluate_rubric_item s item outcome = create_fallback_decision item ∧
    (create_fallback_decision item).confidence = 0 ∧
    (create_fallback_decision item).reasoning = some "All LLM evaluation attempts failed" ∧
    (item.type = .CHECKBOX →
      (create_fallback_decision item).verdict =
        Verdict.checkbox { decision := .check
                           evidence := { file := "unknown", lines := "0-0" }
                           comment := manual_review_comment
                           confidence := 0 }) ∧
    (∀ k lbl restOpts, item.type = .Radio → item.options = some ((k, lbl) :: restOpts) →
      (create_fallback_decision item).verdict =
        Verdict.radio { selected_option := k
                        evidence := { file := "unknown", lines := "0-0" }
                        comment := manual_review_comment
                        confidence := 0 }) := by
  refine ⟨?_, by simp [create_fallback_decision], by simp [create_fallback_decision],
    ?_, ?_⟩
  · simp only [evaluate_rubric_item]
    rw [if_pos h]
  · intro ht
    simp [create_fallback_decision, ht]
  · intro k lbl restOpts ht hopts
    simp [create_fallback_decision, ht, hopts]

theorem claim_C6_witness :
    valid_verdicts defaultSettings exFailOutcome = [] ∧
    evaluate_rubric_item defaultSettings exCheckboxItem exFailOutcome =
      create_fallback_decision exCheckboxItem :=
  ⟨by decide,
    (claim_C6_fallback defaultSettings exCheckboxItem exFailOutcome (by decide)).1⟩

/-! ## Claim C7: retry classification and ceiling -/

/-- The transient-failure class described by the specification:
connection/timeout/read errors, HTTP status 429 or a 5xx status
signalling server unavailability, or provider-specific
rate-limit/overload/timeout/connection errors. -/
def TransientError (e : PyException) : Prop :=
  (e = .httpxTimeout ∨ e = .httpxConnectError ∨ e = .httpxReadError ∨
    e = .openaiAPIConnectionError ∨ e = .anthropicAPIConnectionError) ∨
  (∃ st, e = .httpxHTTPStatusError st ∧
    (st = 429 ∨ st = 500 ∨ st = 502 ∨ st = 503 ∨ st = 504)) ∨
  (e = .anthropicRateLimitError ∨ e = .anthropicInternalServerError ∨
    e = .anthropicAPITimeoutError ∨ e = .openaiRateLimitError ∨
    e = .openaiInternalServerError ∨ e = .openaiAPITimeoutError)

/-- Attempts made by the retry loop are bounded by the remaining budget. -/
theorem retryLoop_attempts_le {α : Type} (call : Nat → Except PyException α) :
    ∀ (rem k : Nat), (retryLoop call k rem).2 ≤ k + rem + 1
  | 0, k => by
    simp only [retryLoop]
    cases call k <;> simp
  | rem + 1, k => by
    simp only [retryLoop]
    cases call k with
    | ok v => simp
    | error e =>
      by_cases hr : is_retryable_error e
      · simp only [hr, if_true]
        have := retryLoop_attempts_le call rem (k + 1)
        omega
      · simp only [hr, if_false]
        exact (by omega : k + 1 ≤ k + (rem + 1) + 1)

/-- C7: a failed call is retried iff its exception is classified as
transient; non-retryable failures (such as unparseable structured output,
a ValueError) end the call immediately after one attempt; a retryable
failure consumes one attempt and retries; and the number of attempts
never exceeds the configured ceiling. -/
theorem claim_C7_retry_policy (s : Settings) (hs : 0 < s.llm_max_retries) :
    (∀ e, is_retryable_error e = true ↔ TransientError e) ∧
    (∀ (α : Type) (call : Nat → Except PyException α) (e : PyException),
      call 0 = .error e → is_retryable_error e = false →
      evaluate_with_retry s call = (.error e, 1)) ∧
    (∀ (α : Type) (call : Nat → Except PyException α) (k rem : Nat) (e : PyException),
      call k = .error e → is_retryable_error e = true →
      retryLoop call k (rem + 1) = retryLoop call (k + 1) rem) ∧
    (∀ (α : Type) (call : Nat → Except PyException α),
      (evaluate_with_retry s call).2 ≤ s.llm_max_retries) := by
  refine ⟨?_, ?_, ?_, ?_⟩
  · intro e
    cases e with
    | httpxHTTPStatusError st =>
      simp only [is_retryable_error, TransientError]
      simp
      omega
    | _ => simp [is_retryable_error, TransientError]
  · intro α call e hcall hnr
    unfold evaluate_with_retry
    cases hrem : s.llm_max_retries - 1 with
    | zero => simp [retryLoop, hcall]
    | succ rem => simp [retryLoop, hcall, hnr]
  · intro α call k rem e hcall hr
    simp only [retryLoop, hcall, hr, if_true]
  · intro α call
    have := retryLoop_attempts_le call (s.llm_max_retries - 1) 0
    unfold evaluate_with_retry
    omega

theorem claim_C7_witness :
    0 < defaultSettings.llm_max_retries ∧
    is_retryable_error (.valueError "bad json") = false ∧
    evaluate_with_retry defaultSettings
      (fun _ => (.error (.valueError "bad json") : Except PyException CheckboxVerdict)) =
      (.error (.valueError "bad json"), 1) := by
  refine ⟨by decide, by decide, ?_⟩
  exact (claim_C7_retry_policy defaultSettings (by decide)).2.1 CheckboxVerdict
    (fun _ => .error (.valueError "bad json")) (.valueError "bad json") rfl (by decide)

/-! ## Batch scheduler (GradingService._optimize_batch_size) -/

/-- `GradingService._optimize_batch_size`: derive per-batch budgets from
the per-minute caps assuming at most 6 batches per minute, divide by the
parallel calls per item (and 2000 assumed tokens per request), take the
minimum of all constraints — then override with `total_items` whenever
`total_items ≤ batch_size`. -/
def optimize_batch_size (s : Settings) (total_items : Nat) : Nat :=
  let max_requests_per_batch := s.max_requests_per_minute / 6
  let max_tokens_per_batch := s.max_tokens_per_minute / 6
  let max_batch_by_requests := max_requests_per_batch / s.parallel_llm_calls
  let max_batch_by_tokens := max_tokens_per_batch / (s.parallel_llm_calls * 2000)
  let api_limited_batch_size := min max_batch_by_requests max_batch_by_tokens
  let optimal_batch_size := min (min s.batch_size api_limited_batch_size) total_items
  if total_items ≤ s.batch_size then total_items else optimal_batch_size

/-- A configuration under which the single-batch override violates the
request cap: 3 parallel calls, target batch size 100, request cap 60 per
minute. -/
def cexSettings : Settings :=
  { parallel_llm_calls := 3
    batch_size := 100
    batch_processing_delay := 1 / 20
    max_requests_per_minute := 60
    max_tokens_per_minute := 24000000
    llm_max_retries := 3 }

/-- C1 counterexample: with 30 items (≤ batch size 100) the scheduler
uses one batch of all 30 items, implying 30 × 3 = 90 concurrent requests,
which exceeds the configured cap of 60 per minute. -/
theorem claim_C1_counterexample :
    optimize_batch_size cexSettings 30 = 30 ∧
    cexSettings.max_requests_per_minute <
      optimize_batch_size cexSettings 30 * cexSettings.parallel_llm_calls := by
  decide

/-- C1 (amended): when the item count exceeds the configured target batch
size, the computed batch size respects both per-minute caps; when the
item count is at most the target batch size, a single batch containing
everything is used (which, as the counterexample shows, may exceed the
caps). -/
theorem claim_C1_rate_caps (s : Settings) (total_items : Nat)
    (_hp : 0 < s.parallel_llm_calls) :
    (total_items ≤ s.batch_size → optimize_batch_size s total_items = total_items) ∧
    (s.batch_size < total_items →
      optimize_batch_size s total_items * s.parallel_llm_calls ≤
        s.max_requests_per_minute ∧
      optimize_batch_size s total_items * s.parallel_llm_calls * 2000 ≤
        s.max_tokens_per_minute) := by
  constructor
  · intro h
    simp only [optimize_batch_size]
    rw [if_pos h]
  · intro h
    have hif : optimize_batch_size s total_items =
        min (min s.batch_size
          (min ((s.max_requests_per_minute / 6) / s.parallel_llm_calls)
            ((s.max_tokens_per_minute / 6) / (s.parallel_llm_calls * 2000)))) total_items := by
      simp only [optimize_batch_size]
      rw [if_neg (by omega)]
    constructor
    · have h1 : optimize_batch_size s total_items ≤
          (s.max_requests_per_minute / 6) / s.parallel_llm_calls := by
        rw [hif]; omega
      have h2 : optimize_batch_size s total_items * s.parallel_llm_calls ≤
          ((s.max_requests_per_minute / 6) / s.parallel_llm_calls) * s.parallel_llm_calls :=
        Nat.mul_le_mul_right _ h1
      have h3 : ((s.max_requests_per_minute / 6) / s.parallel_llm_calls) *
          s.parallel_llm_calls ≤ s.max_requests_per_minute / 6 :=
        Nat.div_mul_le_self _ _
      have h4 : s.max_requests_per_minute / 6 ≤ s.max_requests_per_minute :=
        Nat.div_le_self _ _
      omega
    · have h1 : optimize_batch_size s total_items ≤
          (s.max_tokens_per_minute / 6) / (s.parallel_llm_calls * 2000) := by
        rw [hif]; omega
      have h2 : optimize_batch_size s total_items * (s.parallel_llm_calls * 2000) ≤
          ((s.max_tokens_per_minute / 6) / (s.parallel_llm_calls * 2000)) *
            (s.parallel_llm_calls * 2000) :=
        Nat.mul_le_mul_right _ h1
      have h3 : ((s.max_tokens_per_minute / 6) / (s.parallel_llm_calls * 2000)) *
          (s.parallel_llm_calls * 2000) ≤ s.max_tokens_per_minute / 6 :=
        Nat.div_mul_le_self _ _
      have h4 : s.max_tokens_per_minute / 6 ≤ s.max_tokens_per_minute :=
        Nat.div_le_self _ _
      have h5 : optimize_batch_size s total_items * s.parallel_llm_calls * 2000 =
          optimize_batch_size s total_items * (s.parallel_llm_calls * 2000) :=
        Nat.mul_assoc _ _ _
      omega

theorem claim_C1_witness :
    0 < defaultSettings.parallel_llm_calls ∧
    defaultSettings.batch_size < 150 ∧
    optimize_batch_size defaultSettings 150 * defaultSettings.parallel_llm_calls ≤
      defaultSettings.max_requests_per_minute := by
  refine ⟨by decide, by decide, ?_⟩
  exact ((claim_C1_rate_caps defaultSettings 150 (by decide)).2 (by decide)).1

/-! ## Streaming pipeline (GradingService.grade_submission)

The batching loop `for batch_start in range(0, total_items,
optimal_batch_size)` slices the rubric list into consecutive chunks; each
batch is evaluated concurrently, then its results are yielded in input
order (the code zips the gathered results back with the batch in order).
A zero step makes `range` raise `ValueError`, modelled as `none`. -/

/-- Consecutive slices `l[i : i + step]` produced by the batching loop.
Only meaningful for `step ≥ 1` (the pipeline guards the `step = 0`
case). -/
def chunks {α : Type} (step : Nat) : List α → List (List α)
  | [] => []
  | x :: xs => (x :: xs.take (step - 1)) :: chunks step (xs.drop (step - 1))
termination_by l => l.length
decreasing_by
  simp only [List.length_cons, List.length_drop]
  omega

theorem chunks_flatten {α : Type} (step : Nat) :
    ∀ l : List α, (chunks step l).flatten = l
  | [] => by rw [chunks]; rfl
  | x :: xs => by
    rw [chunks, List.flatten_cons, chunks_flatten step (xs.drop (step - 1))]
    rw [List.cons_append, List.take_append_drop]
termination_by l => l.length
decreasing_by
  simp only [List.length_cons, List.length_drop]
  omega

/-- The wire model of one streamed event (the PartialResult pydantic
model with its optional fields). -/
structure PartialResult where
  type : String
  rubric_item_id : Option String
  decision : Option GradingDecision
  progress : Option ℚ
  message : Option String
deriving DecidableEq

/-- The decision recorded for one gathered batch result: the evaluated
decision, or the fallback decision when the task raised. -/
def itemDecision (outcome : RubricItem → Except PyException GradingDecision)
    (item : RubricItem) : GradingDecision :=
  match outcome item with
  | .ok d => d
  | .error _ => create_fallback_decision item

/-- The partial results emitted for a run of items, threading the running
`completed_items` counter (progress = completed / total). -/
def emitItems (decide : RubricItem → GradingDecision) (total : Nat) :
    Nat → List RubricItem → List PartialResult
  | _, [] => []
  | completed, item :: rest =>
    { type := "partial_result"
      rubric_item_id := some item.id
      decision := some (decide item)
      progress := some ((completed + 1 : ℚ) / total)
      message := none } :: emitItems decide total (completed + 1) rest

/-- The partial results emitted batch by batch. -/
def emitBatches (decide : RubricItem → GradingDecision) (total : Nat) :
    Nat → List (List RubricItem) → List PartialResult
  | _, [] => []
  | completed, batch :: rest =>
    emitItems decide total completed batch ++
      emitBatches decide total (completed + batch.length) rest

/-- `GradingService.grade_submission`: the full event sequence of one
grading run — one partial result per rubric item, batch by batch, then
one completion event.  The human-readable completion message (it embeds
wall-clock timings) is abstracted as a parameter.  The result is `none`
when the computed batch size is zero, in which case the Python generator
raises `ValueError` from `range`. -/
def grade_submission (s : Settings) (rubric_items : List RubricItem)
    (outcome : RubricItem → Except PyException GradingDecision)
    (completion_message : String) : Option (List PartialResult) :=
  let total_items := rubric_items.length
  let optimal_batch_size := optimize_batch_size s total_items
  if optimal_batch_size = 0 then none
  else
    some (emitBatches (itemDecision outcome) total_items 0
        (chunks optimal_batch_size rubric_items) ++
      [{ type := "job_complete"
         rubric_item_id := none
         decision := none
         progress := some 1
         message := some completion_message }])

theorem emitItems_append (decide : RubricItem → GradingDecision) (total : Nat) :
    ∀ (l1 l2 : List RubricItem) (c : Nat),
      emitItems decide total c (l1 ++ l2) =
        emitItems decide total c l1 ++ emitItems decide total (c + l1.length) l2
  | [], l2, c => by simp [emitItems]
  | x :: xs, l2, c => by
    simp only [List.cons_append, emitItems, List.length_cons, List.append_eq]
    rw [emitItems_append decide total xs l2 (c + 1),
      show c + (xs.length + 1) = c + 1 + xs.length from by omega]

theorem emitBatches_eq_emitItems (decide : RubricItem → GradingDecision) (total : Nat) :
    ∀ (bs : List (List RubricItem)) (c : Nat),
      emitBatches decide total c bs = emitItems decide total c bs.flatten
  | [], c => by simp [emitBatches, emitItems]
  | b :: rest, c => by
    rw [emitBatches, List.flatten_cons, emitItems_append,
      emitBatches_eq_emitItems decide total rest (c + b.length)]

theorem emitItems_ids (decide : RubricItem → GradingDecision) (total : Nat) :
    ∀ (l : List RubricItem) (c : Nat),
      (emitItems decide total c l).map (·.rubric_item_id) =
        l.map (fun item => some item.id)
  | [], _ => rfl
  | x :: xs, c => by
    simp only [emitItems, List.map_cons]
    rw [emitItems_ids decide total xs (c + 1)]

/-- C2: for every non-empty rubric-item list (whenever the computed batch
size is positive, as it is under the shipped configuration), the grading
stream yields exactly one partial result per rubric item, in the original
submission order — the concatenation of the batch slices is the input
list — followed by exactly one terminal completion event. -/
theorem claim_C2_stream_order (s : Settings) (rubric_items : List RubricItem)
    (outcome : RubricItem → Except PyException GradingDecision)
    (completion_message : String)
    (_hne : rubric_items ≠ [])
    (hb : 0 < optimize_batch_size s rubric_items.length) :
    (chunks (optimize_batch_size s rubric_items.length) rubric_items).flatten =
      rubric_items ∧
    grade_submission s rubric_items outcome completion_message =
      some (emitItems (itemDecision outcome) rubric_items.length 0 rubric_items ++
        [{ type := "job_complete"
           rubric_item_id := none
           decision := none
           progress := some 1
           message := some completion_message }]) ∧
    (emitItems (itemDecision outcome) rubric_items.length 0 rubric_items).map
        (·.rubric_item_id) =
      rubric_items.map (fun item => some item.id) := by
  refine ⟨chunks_flatten _ _, ?_, emitItems_ids _ _ _ _⟩
  simp only [grade_submission]
  rw [if_neg (by omega)]
  rw [emitBatches_eq_emitItems, chunks_flatten]

theorem claim_C2_witness :
    ([exCheckboxItem] : List RubricItem) ≠ [] ∧
    0 < optimize_batch_size defaultSettings ([exCheckboxItem] : List RubricItem).length ∧
    grade_submission defaultSettings [exCheckboxItem]
        (fun item => .ok (create_fallback_decision item)) "done" =
      some (emitItems
          (itemDecision (fun item => .ok (create_fallback_decision item))) 1 0
          [exCheckboxItem] ++
        [{ type := "job_complete"
           rubric_item_id := none
           decision := none
           progress := some 1
           message := some "done" }]) := by
  refine ⟨by decide, by decide, ?_⟩
  exact (claim_C2_stream_order defaultSettings [exCheckboxItem]
    (fun item => .ok (create_fallback_decision item)) "done" (by decide) (by decide)).2.1

/-! ## Submission validation (app/api/validators/submission.py)

`validate_submission_request` accumulates every violation found and
raises one HTTP 400 joining all of them iff the list is non-empty.  Each
constructor below corresponds to one `errors.append(...)` site; the
error strings carry the same data as the Python f-strings. -/

/-- Python `str.strip()`: drop leading and trailing whitespace.  (Defined
by structural recursion on the character list so that concrete instances
evaluate inside the kernel.) -/
def pyStrip (s : String) : String :=
  ⟨((s.data.dropWhile Char.isWhitespace).reverse.dropWhile Char.isWhitespace).reverse⟩

/-- Context about the assignment. -/
structure AssignmentContext where
  course_id : String
  assignment_id : String
  submission_id : String
  assignment_name : Option String
  instructions : Option String
deriving DecidableEq

/-- Request to grade a submission. -/
structure SubmissionRequest where
  assignment_context : AssignmentContext
  source_files : List (String × String)
  rubric_items : List RubricItem
deriving DecidableEq

/-- One violation reported by the validator. -/
inductive ValidationError
  | noRubricItems
  | duplicateRubricItemId (id : String)
  | emptyDescription (id : String)
  | negativePoints (id : String) (points : ℚ)
  | radioNoOptions (id : String)
  | radioTooFewOptions (id : String)
  | radioEmptyOptionKey (id : String)
  | radioEmptyOptionText (id : String) (key : String)
  | noSourceFiles
  | emptyFilename
  | totalSizeExceeded (total : Nat)
  | courseIdRequired
  | assignmentIdRequired
  | submissionIdRequired
  | assignmentNameEmpty
deriving DecidableEq

/-- `_validate_radio_options`. -/
def validate_radio_options (item_id : String) (options : List (String × String)) :
    List ValidationError :=
  (if options.length < 2 then [.radioTooFewOptions item_id] else []) ++
  (options.map (fun kv =>
    (if pyStrip kv.1 = "" then [ValidationError.radioEmptyOptionKey item_id] else []) ++
    (if pyStrip kv.2 = "" then [ValidationError.radioEmptyOptionText item_id kv.1] else []))).flatten

/-- The loop of `_validate_rubric_items`, threading the set of ids seen
so far. -/
def validate_rubric_items_go : List RubricItem → List String → List ValidationError
  | [], _ => []
  | item :: rest, seen =>
    ((if item.id ∈ seen then [ValidationError.duplicateRubricItemId item.id] else []) ++
      (if pyStrip item.description = "" then [ValidationError.emptyDescription item.id] else []) ++
      (if item.points < 0 then [ValidationError.negativePoints item.id item.points] else []) ++
      (if item.type = .Radio then
        match item.options with
        | none => [ValidationError.radioNoOptions item.id]
        | some [] => [ValidationError.radioNoOptions item.id]
        | some opts => validate_radio_options item.id opts
      else [])) ++
    validate_rubric_items_go rest (item.id :: seen)

/-- `_validate_source_files`: an empty filename is reported and its entry
skipped; the remaining contents (always strings in this embedding) count
towards the 10 MiB total-size limit. -/
def validate_source_files (source_files : List (String × String)) :
    List ValidationError :=
  (source_files.filterMap (fun f =>
    if pyStrip f.1 = "" then some ValidationError.emptyFilename else none)) ++
  (let total_size := (source_files.filter (fun f => decide (¬ pyStrip f.1 = ""))).foldl
      (fun acc f => acc + f.2.length) 0
   if 10485760 < total_size then [ValidationError.totalSizeExceeded total_size] else [])

/-- `_validate_assignment_context`. -/
def validate_assignment_context (r : SubmissionRequest) : List ValidationError :=
  (if pyStrip r.assignment_context.course_id = "" then [ValidationError.courseIdRequired] else []) ++
  (if pyStrip r.assignment_context.assignment_id = "" then [ValidationError.assignmentIdRequired] else []) ++
  (if pyStrip r.assignment_context.submission_id = "" then [ValidationError.submissionIdRequired] else []) ++
  (match r.assignment_context.assignment_name with
   | some name => if pyStrip name = "" then [ValidationError.assignmentNameEmpty] else []
   | none => [])

/-- `validate_submission_request`: the collected violations; the request
is rejected with HTTP 400 iff this list is non-empty. -/
def validate_submission_request (r : SubmissionRequest) : List ValidationError :=
  (if r.rubric_items = [] then [ValidationError.noRubricItems]
    else validate_rubric_items_go r.rubric_items []) ++
  (if r.source_files = [] then [ValidationError.noSourceFiles]
    else validate_source_files r.source_files) ++
  validate_assignment_context r

/-- A submission whose single rubric item is valid except for carrying
negative points (a deduction), exactly like the example request in the
API schema and the repository test suite. -/
def negPointsRequest : SubmissionRequest :=
  { assignment_context :=
      { course_id := "12345"
        assignment_id := "67890"
        submission_id := "424242"
        assignment_name := none
        instructions := none }
    source_files := [("main.cpp", "int main()")]
    rubric_items := [{ id := "RbA3C2"
                       description := "Proper error handling for edge cases"
                       points := -2
                       type := .CHECKBOX
                       options := none }] }

/-- The same submission with the points made positive. -/
def posPointsRequest : SubmissionRequest :=
  { assignment_context :=
      { course_id := "12345"
        assignment_id := "67890"
        submission_id := "424242"
        assignment_name := none
        instructions := none }
    source_files := [("main.cpp", "int main()")]
    rubric_items := [{ id := "RbA3C2"
                       description := "Proper error handling for edge cases"
                       points := 2
                       type := .CHECKBOX
                       options := none }] }

/-- C8: the validator rejects a rubric item whose only peculiarity is
negative points (the identical request with positive points passes),
although the data model documents points as possibly negative and the
API schema example and the repository test suite both submit items with
points = -2: the `item.points < 0` check contradicts the declared data
model. -/
theorem claim_C8_negative_points_rejected :
    validate_submission_request negPointsRequest =
      [ValidationError.negativePoints "RbA3C2" (-2)] ∧
    validate_submission_request posPointsRequest = [] := by
  decide

/-! ## In-memory job store (app/services/persistence/memory_repository.py) -/

/-- Overall job status record. -/
structure JobStatus where
  job_id : String
  status : String
  progress : ℚ
  completed_items : Nat
  total_items : Nat
  error : Option String
deriving DecidableEq

/-- Python dict assignment `d[k] = v` on an insertion-ordered
association list: an existing key keeps its position and gets the new
value; a new key is appended. -/
def setA {β : Type} : List (String × β) → String → β → List (String × β)
  | [], k, v => [(k, v)]
  | (k', v') :: rest, k, v =>
    if k' = k then (k, v) :: rest else (k', v') :: setA rest k v

/-- Python `d.get(k)`. -/
def getA {β : Type} : List (String × β) → String → Option β
  | [], _ => none
  | (k', v') :: rest, k => if k' = k then some v' else getA rest k

/-- The in-memory job repository state: the `_jobs` dict and the
`_created_times` dict. -/
structure MemoryJobRepository where
  jobs : List (String × JobStatus)
  created_times : List (String × ℚ)
deriving DecidableEq

/-- `MemoryJobRepository.create_job`: unconditionally stores the record
and the creation time.  It never fails. -/
def create_job (now : ℚ) (repo : MemoryJobRepository) (job_id : String)
    (job_status : JobStatus) : MemoryJobRepository :=
  { jobs := setA repo.jobs job_id job_status
    created_times := setA repo.created_times job_id now }

/-- `MemoryJobRepository.get_job`. -/
def get_job (repo : MemoryJobRepository) (job_id : String) : Option JobStatus :=
  getA repo.jobs job_id

def emptyRepo : MemoryJobRepository := { jobs := [], created_times := [] }

def exJobStatus1 : JobStatus :=
  { job_id := "12345_67890_424242"
    status := "processing"
    progress := 0
    completed_items := 0
    total_items := 3
    error := none }

def exJobStatus2 : JobStatus :=
  { job_id := "12345_67890_424242"
    status := "completed"
    progress := 1
    completed_items := 3
    total_items := 3
    error := none }

/-- C9 counterexample: creating a job under an id that already has a
record does not fail — it succeeds and silently replaces the stored
record. -/
theorem claim_C9_counterexample :
    get_job
        (create_job 1
          (create_job 0 emptyRepo "12345_67890_424242" exJobStatus1)
          "12345_67890_424242" exJobStatus2)
        "12345_67890_424242" = some exJobStatus2 ∧
    exJobStatus2 ≠ exJobStatus1 := by
  decide

theorem getA_setA {β : Type} :
    ∀ (l : List (String × β)) (k : String) (v : β), getA (setA l k v) k = some v
  | [], k, v => by simp [setA, getA]
  | (k', v') :: rest, k, v => by
    by_cases h : k' = k
    · simp [setA, getA, h]
    · simp only [setA, getA, if_neg h]
      exact getA_setA rest k v

/-- C9 (amended): `create_job` is total — called with an id that already
exists it does not fail but overwrites, and afterwards the stored record
under that id is the newly supplied one. -/
theorem claim_C9_create_overwrites (now : ℚ) (repo : MemoryJobRepository)
    (job_id : String) (st : JobStatus) :
    get_job (create_job now repo job_id st) job_id = some st :=
  getA_setA repo.jobs job_id st

/-! ## Concrete witnesses for the voting claims -/

def exTieCheck : CheckboxVerdict :=
  { decision := .check
    evidence := { file := "main.cpp", lines := "1-2" }
    comment := "looks fine"
    confidence := 80 }

def exTieUncheck : CheckboxVerdict :=
  { decision := .uncheck
    evidence := { file := "main.cpp", lines := "3-4" }
    comment := "missing checks"
    confidence := 90 }

theorem claim_C10_witness :
    ((exTieCheck :: [exTieUncheck]).map (·.decision)).count RubricDecision.check =
      ((exTieCheck :: [exTieUncheck]).map (·.decision)).count RubricDecision.uncheck ∧
    ∃ b, checkboxVote (exTieCheck :: [exTieUncheck]) =
        some (b, (((exTieCheck :: [exTieUncheck]).map (·.decision)).count b.decision : ℚ) /
          (exTieCheck :: [exTieUncheck]).length * ((b.confidence : ℚ) / 100)) ∧
      b.decision = exTieCheck.decision ∧
      (∀ w ∈ exTieCheck :: [exTieUncheck],
        w.decision = b.decision → w.confidence ≤ b.confidence) ∧
      (exTieCheck :: [exTieUncheck]).find?
        (fun w => decide (w.decision = b.decision) && (w.confidence == b.confidence)) =
        some b :=
  ⟨by decide, claim_C10_checkbox_tie exTieCheck [exTieUncheck] (by decide)⟩

def exRadioA : RadioVerdict :=
  { selected_option := "A"
    evidence := { file := "main.cpp", lines := "1-2" }
    comment := "option A"
    confidence := 70 }

def exRadioB : RadioVerdict :=
  { selected_option := "B"
    evidence := { file := "main.cpp", lines := "3-4" }
    comment := "option B"
    confidence := 60 }

theorem claim_C4_witness :
    (∃ a b, a ≠ b ∧ a ∈ (exRadioA :: [exRadioB]).map (·.selected_option) ∧
      b ∈ (exRadioA :: [exRadioB]).map (·.selected_option) ∧
      ((exRadioA :: [exRadioB]).map (·.selected_option)).count a =
        listMax (((exRadioA :: [exRadioB]).map (·.selected_option)).count ·)
          ((exRadioA :: [exRadioB]).map (·.selected_option)) ∧
      ((exRadioA :: [exRadioB]).map (·.selected_option)).count b =
        listMax (((exRadioA :: [exRadioB]).map (·.selected_option)).count ·)
          ((exRadioA :: [exRadioB]).map (·.selected_option))) ∧
    (∃ w, radioVote (exRadioA :: [exRadioB]) = some (w, 1 / 2) ∧
      ((exRadioA :: [exRadioB]).map (·.selected_option)).count w.selected_option =
        listMax (((exRadioA :: [exRadioB]).map (·.selected_option)).count ·)
          ((exRadioA :: [exRadioB]).map (·.selected_option)) ∧
      ((exRadioA :: [exRadioB]).map (·.selected_option)).find?
        (fun o => ((exRadioA :: [exRadioB]).map (·.selected_option)).count o ==
          listMax (((exRadioA :: [exRadioB]).map (·.selected_option)).count ·)
            ((exRadioA :: [exRadioB]).map (·.selected_option))) = some w.selected_option ∧
      (exRadioA :: [exRadioB]).find?
        (fun u => decide (u.selected_option = w.selected_option)) = some w) :=
  ⟨⟨"A", "B", by decide, by decide, by decide, by decide, by decide⟩,
    (claim_C4_radio_tie_and_majority exRadioA [exRadioB]).1
      ⟨"A", "B", by decide, by decide, by decide, by decide, by decide⟩⟩

end Supergrader
